import Mathlib

/-!
Verification of the offline-sync core of the retail-pos repository.

The development shallowly embeds:
* the outbox queue store (src/stores/syncStore.ts): the queue of
  QueuedRequest values, addToQueue, processQueue, updateRequest,
  removeFromQueue;
* the order repository's sync-related operations
  (BasketRepository.findUnsyncedOrders, updateOrderSyncSuccess,
  updateOrderSyncError).

Time is modelled in milliseconds as Nat.  The HTTP layer (fetch) is
modelled as an oracle mapping a queued request's id to the outcome of
the delivery attempt issued for it during one drain pass: either an
HTTP status code or a transport/network error (the rejected promise
branch of fetch).  processQueue additionally returns the ordered list
of ids for which a delivery attempt (a fetch call) was issued during
the pass, so that theorems can speak about which entries were
attempted and in which order.
-/

/-- Outcome of one fetch call: an HTTP response with a status code, or a
rejected promise (transport/network error). -/
inductive FetchResult where
  | status (code : Nat)
  | networkError
deriving Repr, DecidableEq

/-- Per the Fetch standard, response.ok is true exactly when the status
code is in the range 200..299. -/
def respOk (code : Nat) : Bool :=
  200 ≤ code && code ≤ 299

/-- One pending network mutation, mirroring the QueuedRequest interface
(src/types/syncQueue.ts).  The generated string id is modelled as a Nat;
timestamps are Nats (milliseconds). -/
structure QueuedRequest where
  id : Nat
  url : String
  method : String
  body : Option String := none
  headers : List (String × String) := []
  attempts : Nat
  maxAttempts : Option Nat := none
  createdAt : Nat
  lastAttemptAt : Option Nat := none
  nextRetryAt : Option Nat := none
  requestId : String
deriving Repr, DecidableEq

/-- The persisted slice of the zustand store state (queue plus the
isProcessing flag). -/
structure SyncState where
  queue : List QueuedRequest
  isProcessing : Bool
deriving Repr, DecidableEq

/-- The exponential backoff delay computed in the 5xx branch of
processQueue: min(30000 * 2^(attempts-1), 300000) milliseconds. -/
def backoffMs (attempts : Nat) : Nat :=
  min (30000 * 2 ^ (attempts - 1)) 300000

/-- updateRequest(id, updates): map over the queue, replacing the entry
with the given id by its updated version. -/
def updateRequest (i : Nat) (f : QueuedRequest → QueuedRequest)
    (q : List QueuedRequest) : List QueuedRequest :=
  q.map (fun item => if item.id = i then f item else item)

/-- removeFromQueue / the inline success and client-error removals:
filter the entry with the given id out of the queue. -/
def removeFromQueue (i : Nat) (q : List QueuedRequest) : List QueuedRequest :=
  q.filter (fun item => item.id ≠ i)

/-- The update applied to a queue entry in the 5xx branch of
processQueue: attempts is incremented (from the snapshot value
`attempts`), lastAttemptAt is set to now and nextRetryAt to
now + backoffMs. -/
def retryUpdate (now attempts : Nat) (item : QueuedRequest) : QueuedRequest :=
  { item with
    attempts := attempts + 1
    lastAttemptAt := some now
    nextRetryAt := some (now + backoffMs (attempts + 1)) }

/-- The body of the for-loop of processQueue (src/stores/syncStore.ts,
lines 43-90).  The first list is the remaining part of the snapshot
taken at the start of the pass (`const { queue } = get()`); the second
is the live queue that set/filter/map act on.  For each snapshot entry a
fetch is issued, then:
* response.ok (2xx): remove the entry from the live queue, continue;
* status ≥ 500: update the entry via updateRequest (attempts + 1,
  lastAttemptAt = now, nextRetryAt = now + backoff) and break;
* status ≥ 400: remove the entry, continue;
* any other status (1xx/3xx): fall through all branches, continue with
  the queue unchanged;
* network error (fetch rejects): break with the queue unchanged.
The Nat list returned is the ordered list of ids for which a fetch was
issued in this pass. -/
def processPass (fetch : Nat → FetchResult) (now : Nat) :
    List QueuedRequest → List QueuedRequest → List QueuedRequest × List Nat
  | [], live => (live, [])
  | action :: rest, live =>
    match fetch action.id with
    | .networkError => (live, [action.id])
    | .status code =>
      if respOk code then
        let r := processPass fetch now rest (removeFromQueue action.id live)
        (r.1, action.id :: r.2)
      else if 500 ≤ code then
        (updateRequest action.id (retryUpdate now action.attempts) live,
         [action.id])
      else if 400 ≤ code then
        let r := processPass fetch now rest (removeFromQueue action.id live)
        (r.1, action.id :: r.2)
      else
        let r := processPass fetch now rest live
        (r.1, action.id :: r.2)

/-- processQueue: if the queue is empty, clear isProcessing and return;
otherwise set isProcessing, run the loop over a snapshot of the queue,
and clear isProcessing at the end.  Returns the final state and the
ordered list of ids attempted during the pass. -/
def processQueue (fetch : Nat → FetchResult) (now : Nat) (s : SyncState) :
    SyncState × List Nat :=
  match s.queue with
  | [] => ({ s with isProcessing := false }, [])
  | q@(_ :: _) =>
    let r := processPass fetch now q q
    ({ queue := r.1, isProcessing := false }, r.2)

/-- The caller-supplied fields of addToQueue's argument
(Omit of QueuedRequest over id, attempts, createdAt). -/
structure NewRequest where
  url : String
  method : String
  body : Option String := none
  headers : List (String × String) := []
  maxAttempts : Option Nat := none
  requestId : Option String := none
deriving Repr, DecidableEq

/-- The QueuedRequest that addToQueue builds: attempts = 0, generated id
and createdAt = now, requestId defaulting to a fresh random value when
the caller supplies none.  freshId and freshRequestId stand for the
randomly generated identifiers. -/
def newQueuedRequest (freshId : Nat) (freshRequestId : String) (now : Nat)
    (r : NewRequest) : QueuedRequest :=
  { id := freshId
    url := r.url
    method := r.method
    body := r.body
    headers := r.headers
    attempts := 0
    maxAttempts := r.maxAttempts
    createdAt := now
    requestId := r.requestId.getD freshRequestId }

/-- addToQueue: append the new entry to the queue, then invoke
processQueue only when isProcessing is false (the store's only
coalescing guard). -/
def addToQueue (fetch : Nat → FetchResult) (freshId : Nat)
    (freshRequestId : String) (now : Nat) (r : NewRequest) (s : SyncState) :
    SyncState × List Nat :=
  let s' : SyncState :=
    { s with queue := s.queue ++ [newQueuedRequest freshId freshRequestId now r] }
  if s.isProcessing then (s', []) else processQueue fetch now s'

/-- The ids of the entries of a queue, in queue order. -/
def queueIds (q : List QueuedRequest) : List Nat :=
  q.map (fun item => item.id)

/-- All entries of the queue carry pairwise distinct ids (the generated
ids are unique). -/
def IdsDistinct (q : List QueuedRequest) : Prop :=
  (queueIds q).Nodup

instance (q : List QueuedRequest) : Decidable (IdsDistinct q) := by
  unfold IdsDistinct; infer_instance

/-- One row of the local_orders table (the LocalOrderRow interface of
the repository file).  Timestamps are Nats; nullable columns are
Options. -/
structure LocalOrderRow where
  id : String
  platform_order_id : Option String := none
  platform : Option String := none
  items : String := "[]"
  subtotal : Nat := 0
  tax : Nat := 0
  total : Nat := 0
  discount_amount : Option Nat := none
  discount_code : Option String := none
  customer_email : Option String := none
  customer_name : Option String := none
  note : Option String := none
  payment_method : Option String := none
  payment_transaction_id : Option String := none
  cashier_id : Option String := none
  cashier_name : Option String := none
  status : String
  sync_status : String
  sync_error : Option String := none
  created_at : Nat
  updated_at : Nat
  paid_at : Option Nat := none
  synced_at : Option Nat := none
deriving Repr, DecidableEq

/-- Comparator for ORDER BY created_at ASC. -/
def createdAtLe (a b : LocalOrderRow) : Bool :=
  a.created_at ≤ b.created_at

/-- BasketRepository.findUnsyncedOrders: SELECT * FROM local_orders
WHERE status = 'paid' AND sync_status != 'synced' ORDER BY created_at
ASC, over a table modelled as a list of rows. -/
def findUnsyncedOrders (tbl : List LocalOrderRow) : List LocalOrderRow :=
  (tbl.filter (fun r => r.status = "paid" && r.sync_status ≠ "synced")).mergeSort
    createdAtLe

/-- BasketRepository.updateOrderSyncSuccess: UPDATE local_orders SET
platform_order_id = ?, sync_status = 'synced', synced_at = ?,
updated_at = ? WHERE id = ?. -/
def updateOrderSyncSuccess (now : Nat) (orderId platformOrderId : String)
    (tbl : List LocalOrderRow) : List LocalOrderRow :=
  tbl.map (fun r =>
    if r.id = orderId then
      { r with
        platform_order_id := some platformOrderId
        sync_status := "synced"
        synced_at := some now
        updated_at := now }
    else r)

/-- BasketRepository.updateOrderSyncError: UPDATE local_orders SET
sync_status = ?, sync_error = ?, updated_at = ? WHERE id = ?. -/
def updateOrderSyncError (now : Nat) (orderId syncStatus errorMessage : String)
    (tbl : List LocalOrderRow) : List LocalOrderRow :=
  tbl.map (fun r =>
    if r.id = orderId then
      { r with
        sync_status := syncStatus
        sync_error := some errorMessage
        updated_at := now }
    else r)

/-- Structural characterization of one drain pass over a queue with
distinct ids: the same case split as processPass, but recursing on the
queue itself instead of threading a separate live list.  Used as the
induction vehicle for the theorems; the lemma processPass_eq_drainRec
shows it coincides with processPass. -/
def drainRec (fetch : Nat → FetchResult) (now : Nat) :
    List QueuedRequest → List QueuedRequest × List Nat
  | [] => ([], [])
  | action :: rest =>
    match fetch action.id with
    | .networkError => (action :: rest, [action.id])
    | .status code =>
      if respOk code then
        let r := drainRec fetch now rest
        (r.1, action.id :: r.2)
      else if 500 ≤ code then
        (retryUpdate now action.attempts action :: rest, [action.id])
      else if 400 ≤ code then
        let r := drainRec fetch now rest
        (r.1, action.id :: r.2)
      else
        let r := drainRec fetch now rest
        (action :: r.1, action.id :: r.2)

theorem queueIds_cons (a : QueuedRequest) (q : List QueuedRequest) :
    queueIds (a :: q) = a.id :: queueIds q := rfl

theorem queueIds_append (p q : List QueuedRequest) :
    queueIds (p ++ q) = queueIds p ++ queueIds q := by
  simp [queueIds]

theorem idsDistinct_cons {a : QueuedRequest} {q : List QueuedRequest} :
    IdsDistinct (a :: q) ↔ a.id ∉ queueIds q ∧ IdsDistinct q := by
  simp [IdsDistinct, queueIds_cons, List.nodup_cons]

theorem removeFromQueue_eq_of_not_mem {i : Nat} {q : List QueuedRequest}
    (h : i ∉ queueIds q) : removeFromQueue i q = q := by
  apply List.filter_eq_self.mpr
  intro a ha
  simp only [ne_eq, decide_eq_true_eq]
  intro hai
  exact h (by simpa [queueIds, hai] using List.mem_map_of_mem (fun r => r.id) ha)

theorem removeFromQueue_middle {i : Nat} {pre rest : List QueuedRequest}
    {a : QueuedRequest} (ha : a.id = i)
    (hpre : i ∉ queueIds pre) (hrest : i ∉ queueIds rest) :
    removeFromQueue i (pre ++ a :: rest) = pre ++ rest := by
  have h1 : removeFromQueue i pre = pre := removeFromQueue_eq_of_not_mem hpre
  have h2 : removeFromQueue i rest = rest := removeFromQueue_eq_of_not_mem hrest
  simp only [removeFromQueue, List.filter_append, List.filter_cons] at h1 h2 ⊢
  rw [h1, h2]
  simp [ha]

theorem updateRequest_eq_of_not_mem {i : Nat} {f : QueuedRequest → QueuedRequest}
    {q : List QueuedRequest} (h : i ∉ queueIds q) : updateRequest i f q = q := by
  induction q with
  | nil => rfl
  | cons a t ih =>
    rw [queueIds_cons] at h
    have h1 : i ≠ a.id := fun he => h (he ▸ List.mem_cons_self _ _)
    have h2 : i ∉ queueIds t := fun hm => h (List.mem_cons_of_mem _ hm)
    simp only [updateRequest, List.map_cons] at ih ⊢
    rw [if_neg (fun he => h1 he.symm), ih h2]

theorem updateRequest_middle {i : Nat} {f : QueuedRequest → QueuedRequest}
    {pre rest : List QueuedRequest} {a : QueuedRequest} (ha : a.id = i)
    (hpre : i ∉ queueIds pre) (hrest : i ∉ queueIds rest) :
    updateRequest i f (pre ++ a :: rest) = pre ++ f a :: rest := by
  have h1 : updateRequest i f pre = pre := updateRequest_eq_of_not_mem hpre
  have h2 : updateRequest i f rest = rest := updateRequest_eq_of_not_mem hrest
  simp only [updateRequest, List.map_append, List.map_cons] at h1 h2 ⊢
  rw [h1, h2, if_pos ha]

theorem processPass_eq_drainRec_aux (fetch : Nat → FetchResult) (now : Nat) :
    ∀ (snap pre : List QueuedRequest),
      (∀ i, i ∈ queueIds pre → i ∉ queueIds snap) →
      IdsDistinct snap →
      processPass fetch now snap (pre ++ snap) =
        (pre ++ (drainRec fetch now snap).1, (drainRec fetch now snap).2) := by
  intro snap
  induction snap with
  | nil =>
    intro pre _ _
    simp [processPass, drainRec]
  | cons action rest ih =>
    intro pre hdisj hdist
    rw [idsDistinct_cons] at hdist
    obtain ⟨hact, hdist'⟩ := hdist
    have hpre_act : action.id ∉ queueIds pre := fun h =>
      hdisj _ h (by rw [queueIds_cons]; exact List.mem_cons_self _ _)
    have hdisj' : ∀ i, i ∈ queueIds pre → i ∉ queueIds rest := fun i hi hmem =>
      hdisj i hi (by rw [queueIds_cons]; exact List.mem_cons_of_mem _ hmem)
    cases hfa : fetch action.id with
    | networkError =>
      simp [processPass, drainRec, hfa]
    | status code =>
      by_cases hok : respOk code
      · have hrm : removeFromQueue action.id (pre ++ action :: rest) = pre ++ rest :=
          removeFromQueue_middle rfl hpre_act hact
        simp only [processPass, drainRec, hfa, hok, if_true]
        rw [hrm, ih pre hdisj' hdist']
      · by_cases h5 : 500 ≤ code
        · have hup : updateRequest action.id (retryUpdate now action.attempts)
              (pre ++ action :: rest) =
              pre ++ retryUpdate now action.attempts action :: rest :=
            updateRequest_middle rfl hpre_act hact
          simp only [processPass, drainRec, hfa, hok, h5, if_false, if_true,
            Bool.false_eq_true]
          rw [hup]
        · by_cases h4 : 400 ≤ code
          · have hrm : removeFromQueue action.id (pre ++ action :: rest) = pre ++ rest :=
              removeFromQueue_middle rfl hpre_act hact
            simp only [processPass, drainRec, hfa, hok, h5, h4, if_false, if_true,
              Bool.false_eq_true]
            rw [hrm, ih pre hdisj' hdist']
          · have hpre' : ∀ i, i ∈ queueIds (pre ++ [action]) → i ∉ queueIds rest := by
              intro i hi
              rw [queueIds_append] at hi
              rcases List.mem_append.mp hi with hi | hi
              · exact hdisj' i hi
              · rcases List.mem_singleton.mp (by simpa [queueIds] using hi) with rfl
                exact hact
            have := ih (pre ++ [action]) hpre' hdist'
            rw [List.append_assoc, List.singleton_append] at this
            simp only [processPass, drainRec, hfa, hok, h5, h4, if_false,
              Bool.false_eq_true]
            rw [this]
            simp

theorem processPass_eq_drainRec (fetch : Nat → FetchResult) (now : Nat)
    (q : List QueuedRequest) (h : IdsDistinct q) :
    processPass fetch now q q = drainRec fetch now q := by
  have := processPass_eq_drainRec_aux fetch now q [] (by simp [queueIds]) h
  simpa using this

theorem processQueue_eq_drainRec (fetch : Nat → FetchResult) (now : Nat)
    (s : SyncState) (h : IdsDistinct s.queue) :
    processQueue fetch now s =
      ({ queue := (drainRec fetch now s.queue).1, isProcessing := false },
       (drainRec fetch now s.queue).2) := by
  obtain ⟨q, b⟩ := s
  cases q with
  | nil => simp [processQueue, drainRec]
  | cons a t =>
    simp only [processQueue]
    rw [processPass_eq_drainRec fetch now (a :: t) h]

/-- An entry blocks the pass when its delivery yields a 5xx status or a
network error (the two break branches of the loop). -/
def isBlocker (fetch : Nat → FetchResult) (a : QueuedRequest) : Bool :=
  match fetch a.id with
  | .networkError => true
  | .status code => !respOk code && 500 ≤ code

/-- The prefix of the queue that a drain pass attempts: every entry up
to and including the first blocker, or the whole queue when no entry
blocks.  Eligibility (nextRetryAt) plays no part. -/
def attemptedPrefix (fetch : Nat → FetchResult) :
    List QueuedRequest → List QueuedRequest
  | [] => []
  | a :: rest =>
    if isBlocker fetch a then [a] else a :: attemptedPrefix fetch rest

theorem retryUpdate_id (now k : Nat) (a : QueuedRequest) :
    (retryUpdate now k a).id = a.id := rfl

theorem drainRec_trace_eq (fetch : Nat → FetchResult) (now : Nat)
    (q : List QueuedRequest) :
    (drainRec fetch now q).2 = queueIds (attemptedPrefix fetch q) := by
  induction q with
  | nil => simp [drainRec, attemptedPrefix, queueIds]
  | cons action rest ih =>
    cases hfa : fetch action.id with
    | networkError =>
      simp [drainRec, attemptedPrefix, isBlocker, hfa, queueIds]
    | status code =>
      by_cases hok : respOk code
      · simp [drainRec, attemptedPrefix, isBlocker, hfa, hok, queueIds_cons, ih]
      · by_cases h5 : 500 ≤ code
        · simp [drainRec, attemptedPrefix, isBlocker, hfa, hok, h5, queueIds]
        · by_cases h4 : 400 ≤ code
          · simp [drainRec, attemptedPrefix, isBlocker, hfa, hok, h5, h4,
              queueIds_cons, ih]
          · simp [drainRec, attemptedPrefix, isBlocker, hfa, hok, h5, h4,
              queueIds_cons, ih]

theorem drainRec_trace_subset (fetch : Nat → FetchResult) (now : Nat)
    (q : List QueuedRequest) {x : Nat} (hx : x ∈ (drainRec fetch now q).2) :
    x ∈ queueIds q := by
  induction q with
  | nil => simp [drainRec] at hx
  | cons action rest ih =>
    rw [queueIds_cons]
    cases hfa : fetch action.id with
    | networkError =>
      simp [drainRec, hfa] at hx
      exact hx ▸ List.mem_cons_self _ _
    | status code =>
      by_cases hok : respOk code
      · simp only [drainRec, hfa, hok, if_true] at hx
        rcases List.mem_cons.mp hx with rfl | hx
        · exact List.mem_cons_self _ _
        · exact List.mem_cons_of_mem _ (ih hx)
      · by_cases h5 : 500 ≤ code
        · simp [drainRec, hfa, hok, h5] at hx
          exact hx ▸ List.mem_cons_self _ _
        · by_cases h4 : 400 ≤ code
          · simp only [drainRec, hfa, hok, h5, h4, if_false, if_true,
              Bool.false_eq_true] at hx
            rcases List.mem_cons.mp hx with rfl | hx
            · exact List.mem_cons_self _ _
            · exact List.mem_cons_of_mem _ (ih hx)
          · simp only [drainRec, hfa, hok, h5, h4, if_false,
              Bool.false_eq_true] at hx
            rcases List.mem_cons.mp hx with rfl | hx
            · exact List.mem_cons_self _ _
            · exact List.mem_cons_of_mem _ (ih hx)

theorem drainRec_ids_subset (fetch : Nat → FetchResult) (now : Nat)
    (q : List QueuedRequest) {x : Nat}
    (hx : x ∈ queueIds (drainRec fetch now q).1) : x ∈ queueIds q := by
  induction q with
  | nil => simpa [drainRec] using hx
  | cons action rest ih =>
    rw [queueIds_cons]
    cases hfa : fetch action.id with
    | networkError =>
      rw [show (drainRec fetch now (action :: rest)).1 = action :: rest by
        simp [drainRec, hfa]] at hx
      exact hx
    | status code =>
      by_cases hok : respOk code
      · rw [show (drainRec fetch now (action :: rest)).1 =
            (drainRec fetch now rest).1 by simp [drainRec, hfa, hok]] at hx
        exact List.mem_cons_of_mem _ (ih hx)
      · by_cases h5 : 500 ≤ code
        · rw [show (drainRec fetch now (action :: rest)).1 =
              retryUpdate now action.attempts action :: rest by
            simp [drainRec, hfa, hok, h5]] at hx
          rw [queueIds_cons, retryUpdate_id] at hx
          exact hx
        · by_cases h4 : 400 ≤ code
          · rw [show (drainRec fetch now (action :: rest)).1 =
                (drainRec fetch now rest).1 by simp [drainRec, hfa, hok, h5, h4]] at hx
            exact List.mem_cons_of_mem _ (ih hx)
          · rw [show (drainRec fetch now (action :: rest)).1 =
                action :: (drainRec fetch now rest).1 by
              simp [drainRec, hfa, hok, h5, h4]] at hx
            rw [queueIds_cons] at hx
            rcases List.mem_cons.mp hx with rfl | hx
            · exact List.mem_cons_self _ _
            · exact List.mem_cons_of_mem _ (ih hx)

theorem getLast?_cons_of_ne_nil {α : Type} {t : List α} (x : α) (h : t ≠ []) :
    (x :: t).getLast? = t.getLast? := by
  cases t with
  | nil => exact absurd rfl h
  | cons y u => exact List.getLast?_cons_cons

theorem mem_head_of_id_eq {a action : QueuedRequest} {rest : List QueuedRequest}
    (ha : a ∈ action :: rest) (hact : action.id ∉ queueIds rest)
    (hid : a.id = action.id) : a = action := by
  rcases List.mem_cons.mp ha with rfl | ha
  · rfl
  · exact absurd (hid ▸ List.mem_map_of_mem (fun r => r.id) ha) hact

theorem mem_tail_of_id_mem {a action : QueuedRequest} {rest : List QueuedRequest}
    (ha : a ∈ action :: rest) (hact : action.id ∉ queueIds rest)
    (hid : a.id ∈ queueIds rest) : a ∈ rest := by
  rcases List.mem_cons.mp ha with rfl | ha
  · exact absurd hid hact
  · exact ha

theorem drainRec_blocker_mem (fetch : Nat → FetchResult) (now : Nat) :
    ∀ {q : List QueuedRequest}, IdsDistinct q →
      ∀ {a : QueuedRequest}, a ∈ q → a.id ∈ (drainRec fetch now q).2 →
      (∀ code, fetch a.id = .status code → 500 ≤ code →
        retryUpdate now a.attempts a ∈ (drainRec fetch now q).1 ∧
        (drainRec fetch now q).2.getLast? = some a.id) ∧
      (fetch a.id = .networkError →
        a ∈ (drainRec fetch now q).1 ∧
        (drainRec fetch now q).2.getLast? = some a.id) := by
  intro q
  induction q with
  | nil => intro _ a ha; simp at ha
  | cons action rest ih =>
    intro hdist a ha hmem
    obtain ⟨hact, hdist'⟩ := idsDistinct_cons.mp hdist
    cases hfa : fetch action.id with
    | networkError =>
      rw [show drainRec fetch now (action :: rest) =
          (action :: rest, [action.id]) by simp [drainRec, hfa]] at hmem ⊢
      have hid : a.id = action.id := by simpa using hmem
      have haeq : a = action := mem_head_of_id_eq ha hact hid
      subst haeq
      refine ⟨fun code hcode _ => ?_, fun _ => ⟨List.mem_cons_self _ _, by simp⟩⟩
      rw [hfa] at hcode
      exact absurd hcode (by simp)
    | status code =>
      by_cases hok : respOk code
      · rw [show drainRec fetch now (action :: rest) =
            ((drainRec fetch now rest).1,
             action.id :: (drainRec fetch now rest).2) by
          simp [drainRec, hfa, hok]] at hmem ⊢
        rcases List.mem_cons.mp hmem with hid | hmem'
        · have haeq : a = action := mem_head_of_id_eq ha hact hid
          subst haeq
          constructor
          · intro c hc h5
            rw [hfa] at hc
            injection hc with hcq
            subst hcq
            simp only [respOk, Bool.and_eq_true, decide_eq_true_eq] at hok
            omega
          · intro hne
            rw [hfa] at hne
            exact absurd hne (by simp)
        · have hidr : a.id ∈ queueIds rest :=
            drainRec_trace_subset fetch now rest hmem'
          have har : a ∈ rest := mem_tail_of_id_mem ha hact hidr
          have hres := ih hdist' har hmem'
          have htail : (drainRec fetch now rest).2 ≠ [] := by
            intro hnil
            rw [hnil] at hmem'
            exact absurd hmem' (by simp)
          refine ⟨fun c hc h5 => ⟨(hres.1 c hc h5).1, ?_⟩,
                  fun hne => ⟨(hres.2 hne).1, ?_⟩⟩
          · rw [getLast?_cons_of_ne_nil _ htail]
            exact (hres.1 c hc h5).2
          · rw [getLast?_cons_of_ne_nil _ htail]
            exact (hres.2 hne).2
      · by_cases h5 : 500 ≤ code
        · rw [show drainRec fetch now (action :: rest) =
              (retryUpdate now action.attempts action :: rest, [action.id]) by
            simp [drainRec, hfa, hok, h5]] at hmem ⊢
          have hid : a.id = action.id := by simpa using hmem
          have haeq : a = action := mem_head_of_id_eq ha hact hid
          subst haeq
          refine ⟨fun c hc _ => ⟨List.mem_cons_self _ _, by simp⟩, fun hne => ?_⟩
          rw [hfa] at hne
          exact absurd hne (by simp)
        · by_cases h4 : 400 ≤ code
          · rw [show drainRec fetch now (action :: rest) =
                ((drainRec fetch now rest).1,
                 action.id :: (drainRec fetch now rest).2) by
              simp [drainRec, hfa, hok, h5, h4]] at hmem ⊢
            rcases List.mem_cons.mp hmem with hid | hmem'
            · have haeq : a = action := mem_head_of_id_eq ha hact hid
              subst haeq
              constructor
              · intro c hc h5'
                rw [hfa] at hc
                injection hc with hcq
                subst hcq
                omega
              · intro hne
                rw [hfa] at hne
                exact absurd hne (by simp)
            · have hidr : a.id ∈ queueIds rest :=
                drainRec_trace_subset fetch now rest hmem'
              have har : a ∈ rest := mem_tail_of_id_mem ha hact hidr
              have hres := ih hdist' har hmem'
              have htail : (drainRec fetch now rest).2 ≠ [] := by
                intro hnil
                rw [hnil] at hmem'
                exact absurd hmem' (by simp)
              refine ⟨fun c hc h5' => ⟨(hres.1 c hc h5').1, ?_⟩,
                      fun hne => ⟨(hres.2 hne).1, ?_⟩⟩
              · rw [getLast?_cons_of_ne_nil _ htail]
                exact (hres.1 c hc h5').2
              · rw [getLast?_cons_of_ne_nil _ htail]
                exact (hres.2 hne).2
          · rw [show drainRec fetch now (action :: rest) =
                (action :: (drainRec fetch now rest).1,
                 action.id :: (drainRec fetch now rest).2) by
              simp [drainRec, hfa, hok, h5, h4]] at hmem ⊢
            rcases List.mem_cons.mp hmem with hid | hmem'
            · have haeq : a = action := mem_head_of_id_eq ha hact hid
              subst haeq
              constructor
              · intro c hc h5'
                rw [hfa] at hc
                injection hc with hcq
                subst hcq
                omega
              · intro hne
                rw [hfa] at hne
                exact absurd hne (by simp)
            · have hidr : a.id ∈ queueIds rest :=
                drainRec_trace_subset fetch now rest hmem'
              have har : a ∈ rest := mem_tail_of_id_mem ha hact hidr
              have hres := ih hdist' har hmem'
              have htail : (drainRec fetch now rest).2 ≠ [] := by
                intro hnil
                rw [hnil] at hmem'
                exact absurd hmem' (by simp)
              refine ⟨fun c hc h5' =>
                       ⟨List.mem_cons_of_mem _ (hres.1 c hc h5').1, ?_⟩,
                      fun hne => ⟨List.mem_cons_of_mem _ (hres.2 hne).1, ?_⟩⟩
              · rw [getLast?_cons_of_ne_nil _ htail]
                exact (hres.1 c hc h5').2
              · rw [getLast?_cons_of_ne_nil _ htail]
                exact (hres.2 hne).2

theorem drainRec_removed_iff (fetch : Nat → FetchResult) (now : Nat) :
    ∀ {q : List QueuedRequest}, IdsDistinct q →
      ∀ {a : QueuedRequest}, a ∈ q →
      (a.id ∉ queueIds (drainRec fetch now q).1 ↔
        a.id ∈ (drainRec fetch now q).2 ∧
        ∃ code, fetch a.id = .status code ∧
          (respOk code = true ∨ (400 ≤ code ∧ code ≤ 499))) := by
  intro q
  induction q with
  | nil => intro _ a ha; simp at ha
  | cons action rest ih =>
    intro hdist a ha
    obtain ⟨hact, hdist'⟩ := idsDistinct_cons.mp hdist
    cases hfa : fetch action.id with
    | networkError =>
      rw [show drainRec fetch now (action :: rest) =
          (action :: rest, [action.id]) by simp [drainRec, hfa]]
      constructor
      · intro habs
        exact absurd (List.mem_map_of_mem (fun r => r.id) ha) habs
      · rintro ⟨hmem, c, hc, _⟩
        have hid : a.id = action.id := by simpa using hmem
        have haeq : a = action := mem_head_of_id_eq ha hact hid
        rw [haeq, hfa] at hc
        exact absurd hc (by simp)
    | status code =>
      by_cases hok : respOk code
      · rw [show drainRec fetch now (action :: rest) =
            ((drainRec fetch now rest).1,
             action.id :: (drainRec fetch now rest).2) by
          simp [drainRec, hfa, hok]]
        rcases List.mem_cons.mp ha with rfl | har
        · constructor
          · intro _
            exact ⟨List.mem_cons_self _ _, code, hfa, Or.inl hok⟩
          · intro _ habs
            exact hact (drainRec_ids_subset fetch now rest habs)
        · have hidne : a.id ≠ action.id := fun he =>
            hact (he ▸ List.mem_map_of_mem (fun r => r.id) har)
          rw [ih hdist' har]
          constructor
          · rintro ⟨hmem, hcond⟩
            exact ⟨List.mem_cons_of_mem _ hmem, hcond⟩
          · rintro ⟨hmem, hcond⟩
            rcases List.mem_cons.mp hmem with hid | hmem'
            · exact absurd hid hidne
            · exact ⟨hmem', hcond⟩
      · by_cases h5 : 500 ≤ code
        · rw [show drainRec fetch now (action :: rest) =
              (retryUpdate now action.attempts action :: rest, [action.id]) by
            simp [drainRec, hfa, hok, h5]]
          constructor
          · intro habs
            rcases List.mem_cons.mp ha with rfl | har
            · exact absurd (by
                rw [queueIds_cons, retryUpdate_id]
                exact List.mem_cons_self _ _) habs
            · exact absurd (by
                rw [queueIds_cons, retryUpdate_id]
                exact List.mem_cons_of_mem _
                  (List.mem_map_of_mem (fun r => r.id) har)) habs
          · rintro ⟨hmem, c, hc, hcond⟩
            have hid : a.id = action.id := by simpa using hmem
            have haeq : a = action := mem_head_of_id_eq ha hact hid
            rw [haeq, hfa] at hc
            injection hc with hcq
            subst hcq
            rcases hcond with hcond | hcond
            · exact absurd hcond (by simp [hok])
            · omega
        · by_cases h4 : 400 ≤ code
          · rw [show drainRec fetch now (action :: rest) =
                ((drainRec fetch now rest).1,
                 action.id :: (drainRec fetch now rest).2) by
              simp [drainRec, hfa, hok, h5, h4]]
            rcases List.mem_cons.mp ha with rfl | har
            · constructor
              · intro _
                exact ⟨List.mem_cons_self _ _, code, hfa, Or.inr ⟨h4, by omega⟩⟩
              · intro _ habs
                exact hact (drainRec_ids_subset fetch now rest habs)
            · have hidne : a.id ≠ action.id := fun he =>
                hact (he ▸ List.mem_map_of_mem (fun r => r.id) har)
              rw [ih hdist' har]
              constructor
              · rintro ⟨hmem, hcond⟩
                exact ⟨List.mem_cons_of_mem _ hmem, hcond⟩
              · rintro ⟨hmem, hcond⟩
                rcases List.mem_cons.mp hmem with hid | hmem'
                · exact absurd hid hidne
                · exact ⟨hmem', hcond⟩
          · rw [show drainRec fetch now (action :: rest) =
                (action :: (drainRec fetch now rest).1,
                 action.id :: (drainRec fetch now rest).2) by
              simp [drainRec, hfa, hok, h5, h4]]
            rcases List.mem_cons.mp ha with rfl | har
            · rw [queueIds_cons]
              constructor
              · intro habs
                exact absurd (List.mem_cons_self _ _) habs
              · rintro ⟨hmem, c, hc, hcond⟩
                rw [hfa] at hc
                injection hc with hcq
                subst hcq
                rcases hcond with hcond | hcond
                · exact absurd hcond (by simp [hok])
                · omega
            · have hidne : a.id ≠ action.id := fun he =>
                hact (he ▸ List.mem_map_of_mem (fun r => r.id) har)
              rw [queueIds_cons]
              have hiff := ih hdist' har
              constructor
              · intro habs
                have hmem : a.id ∉ queueIds (drainRec fetch now rest).1 :=
                  fun hm => habs (List.mem_cons_of_mem _ hm)
                obtain ⟨ht, hcond⟩ := hiff.mp hmem
                exact ⟨List.mem_cons_of_mem _ ht, hcond⟩
              · rintro ⟨hmem, hcond⟩ habs
                rcases List.mem_cons.mp hmem with hid | hmem'
                · exact hidne hid
                · rcases List.mem_cons.mp habs with hid | habs'
                  · exact hidne hid
                  · exact (hiff.mpr ⟨hmem', hcond⟩) habs'

theorem attemptedPrefix_sublist (fetch : Nat → FetchResult)
    (q : List QueuedRequest) : (attemptedPrefix fetch q).Sublist q := by
  induction q with
  | nil => simp [attemptedPrefix]
  | cons a rest ih =>
    by_cases hb : isBlocker fetch a
    · simp only [attemptedPrefix, hb, if_true]
      exact (List.nil_sublist rest).cons₂ a
    · simp only [attemptedPrefix, hb, if_false, Bool.false_eq_true]
      exact ih.cons₂ a

theorem drainRec_trace_nodup (fetch : Nat → FetchResult) (now : Nat)
    (q : List QueuedRequest) (h : IdsDistinct q) :
    (drainRec fetch now q).2.Nodup := by
  rw [drainRec_trace_eq]
  unfold IdsDistinct at h
  unfold queueIds at h ⊢
  exact ((attemptedPrefix_sublist fetch q).map (fun item => item.id)).nodup h

theorem mem_attemptedPrefix_head (fetch : Nat → FetchResult)
    (b : QueuedRequest) (l : List QueuedRequest) :
    b.id ∈ queueIds (attemptedPrefix fetch (b :: l)) := by
  by_cases hb : isBlocker fetch b <;> simp [attemptedPrefix, hb, queueIds]

theorem attemptedPrefix_continues (fetch : Nat → FetchResult) :
    ∀ (l1 : List QueuedRequest) {l2 : List QueuedRequest} {a b : QueuedRequest},
      IdsDistinct (l1 ++ a :: b :: l2) →
      a.id ∈ queueIds (attemptedPrefix fetch (l1 ++ a :: b :: l2)) →
      isBlocker fetch a = false →
      b.id ∈ queueIds (attemptedPrefix fetch (l1 ++ a :: b :: l2))
  | [], l2, a, b, hdist, hmem, hnb => by
    rw [List.nil_append,
      show attemptedPrefix fetch (a :: b :: l2) =
        a :: attemptedPrefix fetch (b :: l2) by simp [attemptedPrefix, hnb],
      queueIds_cons]
    exact List.mem_cons_of_mem _ (mem_attemptedPrefix_head fetch b l2)
  | x :: l1', l2, a, b, hdist, hmem, hnb => by
    rw [List.cons_append] at hdist hmem ⊢
    obtain ⟨hx, hdist'⟩ := idsDistinct_cons.mp hdist
    have hane : a.id ≠ x.id := by
      intro he
      apply hx
      rw [← he]
      exact List.mem_map_of_mem (fun item => item.id)
        (List.mem_append_right l1' (List.mem_cons_self a _))
    by_cases hbx : isBlocker fetch x
    · rw [show attemptedPrefix fetch (x :: (l1' ++ a :: b :: l2)) = [x] by
        simp [attemptedPrefix, hbx]] at hmem
      rw [show queueIds [x] = [x.id] from rfl] at hmem
      exact absurd (List.mem_singleton.mp hmem) hane
    · rw [show attemptedPrefix fetch (x :: (l1' ++ a :: b :: l2)) =
          x :: attemptedPrefix fetch (l1' ++ a :: b :: l2) by
        simp [attemptedPrefix, hbx]] at hmem ⊢
      rw [queueIds_cons] at hmem ⊢
      rcases List.mem_cons.mp hmem with he | hmem'
      · exact absurd he hane
      · exact List.mem_cons_of_mem _
          (attemptedPrefix_continues fetch l1' hdist' hmem' hnb)

theorem isBlocker_false_of_status {fetch : Nat → FetchResult}
    {a : QueuedRequest} {code : Nat} (hc : fetch a.id = .status code)
    (h5 : ¬ 500 ≤ code) : isBlocker fetch a = false := by
  unfold isBlocker
  rw [hc]
  have hd : (decide (500 ≤ code)) = false := decide_eq_false h5
  simp [hd]

theorem isBlocker_false_of_ack_or_reject {fetch : Nat → FetchResult}
    {a : QueuedRequest} {code : Nat} (hc : fetch a.id = .status code)
    (hcode : respOk code = true ∨ (400 ≤ code ∧ code ≤ 499)) :
    isBlocker fetch a = false := by
  refine isBlocker_false_of_status hc ?_
  rcases hcode with h | ⟨h1, h2⟩
  · simp only [respOk, Bool.and_eq_true, decide_eq_true_eq] at h
    omega
  · omega

theorem drainRec_continues_past_nonblocker (fetch : Nat → FetchResult)
    (now : Nat) {q l1 l2 : List QueuedRequest} {a b : QueuedRequest}
    (hdist : IdsDistinct q) (hq : q = l1 ++ a :: b :: l2)
    (hmem : a.id ∈ (drainRec fetch now q).2)
    (hnb : isBlocker fetch a = false) :
    b.id ∈ (drainRec fetch now q).2 := by
  subst hq
  rw [drainRec_trace_eq] at hmem ⊢
  exact attemptedPrefix_continues fetch l1 hdist hmem hnb

theorem drainRec_other_kept (fetch : Nat → FetchResult) (now : Nat) :
    ∀ {q : List QueuedRequest}, IdsDistinct q →
      ∀ {a : QueuedRequest}, a ∈ q → a.id ∈ (drainRec fetch now q).2 →
      ∀ {code : Nat}, fetch a.id = .status code → respOk code = false →
      ¬ 500 ≤ code → ¬ 400 ≤ code →
      a ∈ (drainRec fetch now q).1 := by
  intro q
  induction q with
  | nil => intro _ a ha; simp at ha
  | cons action rest ih =>
    intro hdist a ha hmem code hc hok h5 h4
    obtain ⟨hact, hdist'⟩ := idsDistinct_cons.mp hdist
    cases hfa : fetch action.id with
    | networkError =>
      rw [show drainRec fetch now (action :: rest) =
          (action :: rest, [action.id]) by simp [drainRec, hfa]] at hmem ⊢
      have hid : a.id = action.id := by simpa using hmem
      have haeq : a = action := mem_head_of_id_eq ha hact hid
      subst haeq
      rw [hfa] at hc
      exact absurd hc (by simp)
    | status c =>
      by_cases hokc : respOk c
      · rw [show drainRec fetch now (action :: rest) =
            ((drainRec fetch now rest).1,
             action.id :: (drainRec fetch now rest).2) by
          simp [drainRec, hfa, hokc]] at hmem ⊢
        rcases List.mem_cons.mp hmem with hid | hmem'
        · have haeq : a = action := mem_head_of_id_eq ha hact hid
          subst haeq
          rw [hfa] at hc
          injection hc with hcq
          subst hcq
          exact absurd hokc (by simp [hok])
        · have hidr : a.id ∈ queueIds rest :=
            drainRec_trace_subset fetch now rest hmem'
          have har : a ∈ rest := mem_tail_of_id_mem ha hact hidr
          exact ih hdist' har hmem' hc hok h5 h4
      · by_cases h5c : 500 ≤ c
        · rw [show drainRec fetch now (action :: rest) =
              (retryUpdate now action.attempts action :: rest, [action.id]) by
            simp [drainRec, hfa, hokc, h5c]] at hmem ⊢
          have hid : a.id = action.id := by simpa using hmem
          have haeq : a = action := mem_head_of_id_eq ha hact hid
          subst haeq
          rw [hfa] at hc
          injection hc with hcq
          subst hcq
          exact absurd h5c h5
        · by_cases h4c : 400 ≤ c
          · rw [show drainRec fetch now (action :: rest) =
                ((drainRec fetch now rest).1,
                 action.id :: (drainRec fetch now rest).2) by
              simp [drainRec, hfa, hokc, h5c, h4c]] at hmem ⊢
            rcases List.mem_cons.mp hmem with hid | hmem'
            · have haeq : a = action := mem_head_of_id_eq ha hact hid
              subst haeq
              rw [hfa] at hc
              injection hc with hcq
              subst hcq
              exact absurd h4c h4
            · have hidr : a.id ∈ queueIds rest :=
                drainRec_trace_subset fetch now rest hmem'
              have har : a ∈ rest := mem_tail_of_id_mem ha hact hidr
              exact ih hdist' har hmem' hc hok h5 h4
          · rw [show drainRec fetch now (action :: rest) =
                (action :: (drainRec fetch now rest).1,
                 action.id :: (drainRec fetch now rest).2) by
              simp [drainRec, hfa, hokc, h5c, h4c]] at hmem ⊢
            rcases List.mem_cons.mp hmem with hid | hmem'
            · have haeq : a = action := mem_head_of_id_eq ha hact hid
              subst haeq
              exact List.mem_cons_self _ _
            · have hidr : a.id ∈ queueIds rest :=
                drainRec_trace_subset fetch now rest hmem'
              have har : a ∈ rest := mem_tail_of_id_mem ha hact hidr
              exact List.mem_cons_of_mem _ (ih hdist' har hmem' hc hok h5 h4)

/-- C1 counterexample: a delivery attempt that fails with a
transport/network error leaves the queued entry completely unchanged —
attempts stays 0, nextRetryAt and lastAttemptAt stay unset — even though
the entry was attempted (its id is the one attempt of the pass).  The
claimed "increment attempts, set nextRetryAt = now + backoff, set
lastAttemptAt = now" happens only for 5xx statuses, not for network
errors. -/
theorem networkError_leaves_entry_unchanged :
    processQueue (fun _ => FetchResult.networkError) 1000
      { queue := [{ id := 1, url := "https://shop.example.com/api/orders",
                    method := "POST", attempts := 0, createdAt := 0,
                    requestId := "req-1" }], isProcessing := false } =
    ({ queue := [{ id := 1, url := "https://shop.example.com/api/orders",
                   method := "POST", attempts := 0, createdAt := 0,
                   requestId := "req-1" }], isProcessing := false }, [1]) := by
  decide

/-- C1 (amended): in a drain pass over a queue with distinct ids, an
attempted entry whose delivery returns a 5xx status is updated in place
by retryUpdate — attempts incremented by exactly one, lastAttemptAt set
to now, nextRetryAt set to now + min(30000 * 2^(attempts-1), 300000) —
and draining stops there (its id is the last attempted); an attempted
entry whose delivery fails with a transport/network error also stops
draining, but without any update: the entry survives unchanged. -/
theorem five_xx_updates_and_stops_networkError_only_stops
    (fetch : Nat → FetchResult) (now : Nat) (s : SyncState)
    (a : QueuedRequest) (hdist : IdsDistinct s.queue) (ha : a ∈ s.queue)
    (hmem : a.id ∈ (processQueue fetch now s).2) :
    (∀ code, fetch a.id = .status code → 500 ≤ code →
      retryUpdate now a.attempts a ∈ (processQueue fetch now s).1.queue ∧
      (processQueue fetch now s).2.getLast? = some a.id) ∧
    (fetch a.id = .networkError →
      a ∈ (processQueue fetch now s).1.queue ∧
      (processQueue fetch now s).2.getLast? = some a.id) := by
  rw [processQueue_eq_drainRec fetch now s hdist] at hmem ⊢
  exact drainRec_blocker_mem fetch now hdist ha hmem

/-- C1 witness: a concrete 503 delivery at time 1000 on a singleton
queue updates the entry to attempts 1, lastAttemptAt 1000, nextRetryAt
31000, and ends the pass. -/
theorem five_xx_updates_and_stops_witness :
    retryUpdate 1000 0
        { id := 1, url := "https://shop.example.com/api/orders",
          method := "POST", attempts := 0, createdAt := 0,
          requestId := "req-1" } ∈
      (processQueue (fun _ => FetchResult.status 503) 1000
        { queue := [{ id := 1, url := "https://shop.example.com/api/orders",
                      method := "POST", attempts := 0, createdAt := 0,
                      requestId := "req-1" }], isProcessing := false }).1.queue ∧
    (processQueue (fun _ => FetchResult.status 503) 1000
        { queue := [{ id := 1, url := "https://shop.example.com/api/orders",
                      method := "POST", attempts := 0, createdAt := 0,
                      requestId := "req-1" }], isProcessing := false }).2.getLast? =
      some 1 :=
  (five_xx_updates_and_stops_networkError_only_stops
      (fun _ => FetchResult.status 503) 1000
      { queue := [{ id := 1, url := "https://shop.example.com/api/orders",
                    method := "POST", attempts := 0, createdAt := 0,
                    requestId := "req-1" }], isProcessing := false }
      { id := 1, url := "https://shop.example.com/api/orders",
        method := "POST", attempts := 0, createdAt := 0,
        requestId := "req-1" }
      (by decide) (by decide) (by decide)).1 503 rfl (by decide)

/-- C2 counterexample: an entry whose nextRetryAt (999999) is strictly
in the future at drain time (1000) is attempted anyway — here its
delivery returns 200 and it is removed — although the claim says drain
stops at the first ineligible entry without attempting it. -/
theorem future_nextRetryAt_entry_attempted :
    processQueue (fun _ => FetchResult.status 200) 1000
      { queue := [{ id := 1, url := "https://shop.example.com/api/orders",
                    method := "POST", attempts := 1, createdAt := 0,
                    lastAttemptAt := some 500, nextRetryAt := some 999999,
                    requestId := "req-1" }], isProcessing := false } =
    ({ queue := [], isProcessing := false }, [1]) := by
  decide

/-- C2 (amended): drain attempts entries in insertion order with no
eligibility check: the ids attempted in one pass are exactly the ids of
attemptedPrefix — the prefix of the queue up to and including the first
entry whose delivery yields a 5xx or a network error, or the whole
queue when none does — regardless of every entry's nextRetryAt.  In
particular no entry before the first blocker is skipped and no entry
after it is attempted. -/
theorem drain_attempts_exactly_prefix_to_first_blocker
    (fetch : Nat → FetchResult) (now : Nat) (s : SyncState)
    (hdist : IdsDistinct s.queue) :
    (processQueue fetch now s).2 = queueIds (attemptedPrefix fetch s.queue) := by
  rw [processQueue_eq_drainRec fetch now s hdist]
  exact drainRec_trace_eq fetch now s.queue

/-- C2 witness: in a three-entry queue where the second delivery fails
with 503, the pass attempts exactly entries 1 and 2 in order. -/
theorem drain_attempts_exactly_prefix_witness :
    (processQueue
        (fun i => if i = 2 then FetchResult.status 503 else FetchResult.status 200)
        1000
        { queue :=
            [{ id := 1, url := "https://shop.example.com/api/a", method := "POST",
               attempts := 0, createdAt := 0, requestId := "req-1" },
             { id := 2, url := "https://shop.example.com/api/b", method := "POST",
               attempts := 0, createdAt := 1, requestId := "req-2" },
             { id := 3, url := "https://shop.example.com/api/c", method := "POST",
               attempts := 0, createdAt := 2, requestId := "req-3" }],
          isProcessing := false }).2 = [1, 2] :=
  (drain_attempts_exactly_prefix_to_first_blocker
      (fun i => if i = 2 then FetchResult.status 503 else FetchResult.status 200)
      1000
      { queue :=
          [{ id := 1, url := "https://shop.example.com/api/a", method := "POST",
             attempts := 0, createdAt := 0, requestId := "req-1" },
           { id := 2, url := "https://shop.example.com/api/b", method := "POST",
             attempts := 0, createdAt := 1, requestId := "req-2" },
           { id := 3, url := "https://shop.example.com/api/c", method := "POST",
             attempts := 0, createdAt := 2, requestId := "req-3" }],
        isProcessing := false } (by decide)).trans (by decide)

/-- An externally observable operation on the sync store: a caller
enqueues a mutation (addToQueue), or one of the triggers (connectivity,
foreground, timer, manual) invokes a drain (processQueue). -/
inductive QueueOp where
  | enqueue (freshId : Nat) (freshRequestId : String) (now : Nat) (r : NewRequest)
  | drain (now : Nat)

/-- Apply one operation to the store state; returns the new state and
the ids attempted by the pass the operation ran (empty when none ran). -/
def applyOp (fetch : Nat → FetchResult) : QueueOp → SyncState → SyncState × List Nat
  | .enqueue i rid now r, s => addToQueue fetch i rid now r s
  | .drain now, s => processQueue fetch now s

/-- The generated id of an enqueue is fresh for the current queue. -/
def opFresh : QueueOp → SyncState → Prop
  | .enqueue i _ _ _, s => i ∉ queueIds s.queue
  | .drain _, _ => True

theorem idsDistinct_append_fresh {q : List QueuedRequest} {b : QueuedRequest}
    (hdist : IdsDistinct q) (hb : b.id ∉ queueIds q) :
    IdsDistinct (q ++ [b]) := by
  unfold IdsDistinct at hdist ⊢
  rw [queueIds_append]
  refine List.Nodup.append hdist (List.nodup_singleton _) ?_
  intro x hx hx'
  rw [show queueIds [b] = [b.id] from rfl] at hx'
  rcases List.mem_singleton.mp hx' with rfl
  exact hb hx

/-- C3: across every enqueue or drain operation, an entry present in the
queue beforehand is removed by that operation exactly when the
operation's pass attempted it and its delivery returned a 2xx
(acknowledged) or 4xx (rejected) status — never for a 5xx, a network
error, a 1xx/3xx status, or without an attempt; the pass attempts each
id at most once, so the removal step saw exactly one such response; and
in both removal cases drain continues to the next entry after the
removal: the entry immediately following the removed one in the queue is
attempted in the same pass. -/
theorem request_removed_iff_acked_or_rejected
    (fetch : Nat → FetchResult) (op : QueueOp) (s : SyncState)
    (hdist : IdsDistinct s.queue) (hfresh : opFresh op s)
    (a : QueuedRequest) (ha : a ∈ s.queue) :
    (a.id ∉ queueIds (applyOp fetch op s).1.queue ↔
      a.id ∈ (applyOp fetch op s).2 ∧
      ∃ code, fetch a.id = .status code ∧
        (respOk code = true ∨ (400 ≤ code ∧ code ≤ 499))) ∧
    (applyOp fetch op s).2.Nodup ∧
    (∀ (l1 l2 : List QueuedRequest) (b : QueuedRequest) (code : Nat),
      s.queue = l1 ++ a :: b :: l2 →
      a.id ∈ (applyOp fetch op s).2 →
      fetch a.id = .status code →
      (respOk code = true ∨ (400 ≤ code ∧ code ≤ 499)) →
      b.id ∈ (applyOp fetch op s).2) := by
  cases op with
  | drain now =>
    have he := processQueue_eq_drainRec fetch now s hdist
    simp only [applyOp, he]
    refine ⟨drainRec_removed_iff fetch now hdist ha,
            drainRec_trace_nodup fetch now s.queue hdist, ?_⟩
    intro l1 l2 b code hq hmem hc hcode
    exact drainRec_continues_past_nonblocker fetch now hdist hq hmem
      (isBlocker_false_of_ack_or_reject hc hcode)
  | enqueue i rid nw r =>
    have hbid : (newQueuedRequest i rid nw r).id = i := rfl
    have hfr : i ∉ queueIds s.queue := hfresh
    have hdist' : IdsDistinct (s.queue ++ [newQueuedRequest i rid nw r]) :=
      idsDistinct_append_fresh hdist (hbid ▸ hfr)
    have ha' : a ∈ s.queue ++ [newQueuedRequest i rid nw r] :=
      List.mem_append_left _ ha
    cases hp : s.isProcessing with
    | true =>
      simp only [applyOp, addToQueue, hp, if_true]
      refine ⟨?_, List.nodup_nil, ?_⟩
      · constructor
        · intro habs
          exact absurd (by
            rw [queueIds_append]
            exact List.mem_append_left _
              (List.mem_map_of_mem (fun item => item.id) ha)) habs
        · rintro ⟨hmem, -⟩
          exact absurd hmem (List.not_mem_nil _)
      · intro l1 l2 b code _ hmem _ _
        exact absurd hmem (List.not_mem_nil _)
    | false =>
      have he := processQueue_eq_drainRec fetch nw
        { queue := s.queue ++ [newQueuedRequest i rid nw r],
          isProcessing := false } hdist'
      simp only [applyOp, addToQueue, hp, Bool.false_eq_true, if_false, he]
      refine ⟨drainRec_removed_iff fetch nw hdist' ha',
              drainRec_trace_nodup fetch nw _ hdist', ?_⟩
      intro l1 l2 b code hq hmem hc hcode
      have hq' : s.queue ++ [newQueuedRequest i rid nw r] =
          l1 ++ a :: b :: (l2 ++ [newQueuedRequest i rid nw r]) := by
        rw [hq]
        simp
      exact drainRec_continues_past_nonblocker fetch nw hdist' hq' hmem
        (isBlocker_false_of_ack_or_reject hc hcode)

/-- C3 witness: a concrete drain on a two-entry queue whose deliveries
both return 200 removes the first entry, attempts each id once, and goes
on to attempt the second entry in the same pass. -/
theorem request_removed_iff_witness :
    (1 ∉ queueIds (applyOp (fun _ => FetchResult.status 200)
        (QueueOp.drain 1000)
        { queue := [{ id := 1, url := "https://shop.example.com/api/a",
                      method := "POST", attempts := 0, createdAt := 0,
                      requestId := "req-1" },
                    { id := 2, url := "https://shop.example.com/api/b",
                      method := "POST", attempts := 0, createdAt := 1,
                      requestId := "req-2" }],
          isProcessing := false }).1.queue) ∧
    (applyOp (fun _ => FetchResult.status 200) (QueueOp.drain 1000)
      { queue := [{ id := 1, url := "https://shop.example.com/api/a",
                    method := "POST", attempts := 0, createdAt := 0,
                    requestId := "req-1" },
                  { id := 2, url := "https://shop.example.com/api/b",
                    method := "POST", attempts := 0, createdAt := 1,
                    requestId := "req-2" }],
        isProcessing := false }).2.Nodup ∧
    2 ∈ (applyOp (fun _ => FetchResult.status 200) (QueueOp.drain 1000)
      { queue := [{ id := 1, url := "https://shop.example.com/api/a",
                    method := "POST", attempts := 0, createdAt := 0,
                    requestId := "req-1" },
                  { id := 2, url := "https://shop.example.com/api/b",
                    method := "POST", attempts := 0, createdAt := 1,
                    requestId := "req-2" }],
        isProcessing := false }).2 :=
  have h := request_removed_iff_acked_or_rejected
    (fun _ => FetchResult.status 200) (QueueOp.drain 1000)
    { queue := [{ id := 1, url := "https://shop.example.com/api/a",
                  method := "POST", attempts := 0, createdAt := 0,
                  requestId := "req-1" },
                { id := 2, url := "https://shop.example.com/api/b",
                  method := "POST", attempts := 0, createdAt := 1,
                  requestId := "req-2" }],
      isProcessing := false }
    (by decide) trivial
    { id := 1, url := "https://shop.example.com/api/a",
      method := "POST", attempts := 0, createdAt := 0,
      requestId := "req-1" } (by decide)
  ⟨h.1.mpr ⟨by decide, 200, rfl, Or.inl rfl⟩, h.2.1,
   h.2.2 []
     [] { id := 2, url := "https://shop.example.com/api/b",
          method := "POST", attempts := 0, createdAt := 1,
          requestId := "req-2" } 200 rfl (by decide) rfl (Or.inl rfl)⟩

/-- C4 counterexample: a drain invocation that arrives while a drain is
already flagged in flight (isProcessing = true) is not coalesced into a
no-op: processQueue never consults isProcessing, so the invocation runs
a full pass — here it attempts the queued entry, removes it on its 200
response and resets the flag. -/
theorem drain_during_drain_not_coalesced :
    processQueue (fun _ => FetchResult.status 200) 1000
      { queue := [{ id := 1, url := "https://shop.example.com/api/orders",
                    method := "POST", attempts := 0, createdAt := 0,
                    requestId := "req-1" }], isProcessing := true } =
    ({ queue := [], isProcessing := false }, [1]) := by
  decide

/-- C4 (amended): only enqueue is guarded against an active drain:
addToQueue invoked while isProcessing = true appends the new entry to
the queue — leaving it visible to the next drain pass — and performs no
delivery attempt and no re-entrant drain; trigger-invoked drains carry
no such guard. -/
theorem enqueue_during_drain_appends_only
    (fetch : Nat → FetchResult) (i : Nat) (rid : String) (now : Nat)
    (r : NewRequest) (s : SyncState) (hp : s.isProcessing = true) :
    addToQueue fetch i rid now r s =
      ({ s with queue := s.queue ++ [newQueuedRequest i rid now r] }, []) := by
  simp [addToQueue, hp]

/-- C4 witness: a concrete enqueue during an active drain appends the
entry without draining it. -/
theorem enqueue_during_drain_appends_only_witness :
    addToQueue (fun _ => FetchResult.status 200) 7 "req-7" 1000
      { url := "https://shop.example.com/api/orders", method := "POST" }
      { queue := [], isProcessing := true } =
    ({ queue := [newQueuedRequest 7 "req-7" 1000
          { url := "https://shop.example.com/api/orders", method := "POST" }],
       isProcessing := true }, []) :=
  (enqueue_during_drain_appends_only (fun _ => FetchResult.status 200) 7 "req-7"
      1000 { url := "https://shop.example.com/api/orders", method := "POST" }
      { queue := [], isProcessing := true } rfl).trans (by decide)

/-- C5 counterexample: an entry with attempts = 5 and maxAttempts =
some 3 whose delivery returns 503 is neither dropped nor reported: it
stays in the queue, updated to attempts = 6 with a fresh nextRetryAt, so
the cap claimed to trigger removal and a hard-failure report is never
enforced. -/
theorem maxAttempts_cap_not_enforced :
    processQueue (fun _ => FetchResult.status 503) 1000
      { queue := [{ id := 1, url := "https://shop.example.com/api/orders",
                    method := "POST", attempts := 5, maxAttempts := some 3,
                    createdAt := 0, requestId := "req-1" }],
        isProcessing := false } =
    ({ queue := [{ id := 1, url := "https://shop.example.com/api/orders",
                   method := "POST", attempts := 6, maxAttempts := some 3,
                   createdAt := 0, lastAttemptAt := some 1000,
                   nextRetryAt := some 301000, requestId := "req-1" }],
       isProcessing := false }, [1]) := by
  decide

/-- C5 (amended): retryable 5xx failures are retried indefinitely
whether or not maxAttempts is set: the drain never consults maxAttempts,
so an attempted entry whose delivery returns a 5xx status remains in the
queue (rescheduled for a further retry) even when its attempts counter
already reached or exceeded its maxAttempts cap; it is never dropped as
a hard failure. -/
theorem five_xx_entry_kept_despite_maxAttempts
    (fetch : Nat → FetchResult) (now : Nat) (s : SyncState)
    (a : QueuedRequest) (m code : Nat)
    (hdist : IdsDistinct s.queue) (ha : a ∈ s.queue)
    (hmem : a.id ∈ (processQueue fetch now s).2)
    (hc : fetch a.id = .status code) (h5 : 500 ≤ code)
    (hcap : a.maxAttempts = some m) (hge : m ≤ a.attempts) :
    a.id ∈ queueIds (processQueue fetch now s).1.queue := by
  have he := processQueue_eq_drainRec fetch now s hdist
  rw [he] at hmem ⊢
  have h := (drainRec_blocker_mem fetch now hdist ha hmem).1 code hc h5
  have hm : (retryUpdate now a.attempts a).id ∈
      queueIds (drainRec fetch now s.queue).1 :=
    List.mem_map_of_mem (fun item => item.id) h.1
  exact hm

/-- C5 witness: the concrete capped entry (attempts 5, cap 3) failing
with 503 is still in the queue after the pass. -/
theorem five_xx_entry_kept_witness :
    1 ∈ queueIds (processQueue (fun _ => FetchResult.status 503) 1000
      { queue := [{ id := 1, url := "https://shop.example.com/api/orders",
                    method := "POST", attempts := 5, maxAttempts := some 3,
                    createdAt := 0, requestId := "req-1" }],
        isProcessing := false }).1.queue :=
  five_xx_entry_kept_despite_maxAttempts (fun _ => FetchResult.status 503) 1000
    { queue := [{ id := 1, url := "https://shop.example.com/api/orders",
                  method := "POST", attempts := 5, maxAttempts := some 3,
                  createdAt := 0, requestId := "req-1" }],
      isProcessing := false }
    { id := 1, url := "https://shop.example.com/api/orders",
      method := "POST", attempts := 5, maxAttempts := some 3,
      createdAt := 0, requestId := "req-1" } 3 503
    (by decide) (by decide) (by decide) rfl (by decide) rfl (by decide)

theorem createdAtLe_trans (a b c : LocalOrderRow)
    (hab : createdAtLe a b = true) (hbc : createdAtLe b c = true) :
    createdAtLe a c = true := by
  simp only [createdAtLe, decide_eq_true_eq] at hab hbc ⊢
  omega

theorem createdAtLe_total (a b : LocalOrderRow) :
    (createdAtLe a b || createdAtLe b a) = true := by
  simp only [createdAtLe, Bool.or_eq_true, decide_eq_true_eq]
  omega

theorem mem_findUnsyncedOrders (tbl : List LocalOrderRow) (r : LocalOrderRow) :
    r ∈ findUnsyncedOrders tbl ↔
      r ∈ tbl ∧ r.status = "paid" ∧ r.sync_status ≠ "synced" := by
  rw [findUnsyncedOrders, (List.mergeSort_perm _ _).mem_iff, List.mem_filter]
  simp

theorem findUnsyncedOrders_sorted (tbl : List LocalOrderRow) :
    List.Pairwise (fun x y : LocalOrderRow => x.created_at ≤ y.created_at)
      (findUnsyncedOrders tbl) := by
  rw [findUnsyncedOrders]
  refine List.Pairwise.imp ?_
    (List.sorted_mergeSort createdAtLe_trans createdAtLe_total _)
  intro a b h
  simpa [createdAtLe] using h

/-- C6 counterexample: a paid order whose syncStatus is 'syncing' is
selected by the scan — the query's sync_status != 'synced' condition
does not exclude it — although the claim says an order in 'syncing'
state is never selected. -/
theorem syncing_order_selected_by_scan :
    findUnsyncedOrders
      [{ id := "o1", status := "paid", sync_status := "syncing",
         created_at := 10, updated_at := 10 }] =
      [{ id := "o1", status := "paid", sync_status := "syncing",
         created_at := 10, updated_at := 10 }] := by
  have hf : List.filter
      (fun r : LocalOrderRow => r.status = "paid" && r.sync_status ≠ "synced")
      [({ id := "o1", status := "paid", sync_status := "syncing",
          created_at := 10, updated_at := 10 } : LocalOrderRow)] =
      [({ id := "o1", status := "paid", sync_status := "syncing",
          created_at := 10, updated_at := 10 } : LocalOrderRow)] := by
    decide
  rw [findUnsyncedOrders, hf]
  exact List.mergeSort_singleton _

/-- C6 (amended): the scan selects exactly the rows with status 'paid'
and sync_status different from 'synced', ordered oldest first by
created_at; rows in 'pending', 'failed' and also 'syncing' state are all
selected — there is no failure-count cutoff and no exclusion of
in-flight rows — and only 'synced' (or non-paid) rows are excluded. -/
theorem findUnsyncedOrders_selects_paid_not_synced
    (tbl : List LocalOrderRow) (r : LocalOrderRow) :
    (r ∈ findUnsyncedOrders tbl ↔
      r ∈ tbl ∧ r.status = "paid" ∧ r.sync_status ≠ "synced") ∧
    List.Pairwise (fun x y : LocalOrderRow => x.created_at ≤ y.created_at)
      (findUnsyncedOrders tbl) :=
  ⟨mem_findUnsyncedOrders tbl r, findUnsyncedOrders_sorted tbl⟩

/-- C7 counterexample: updateOrderSyncError invoked with the id of an
order whose syncStatus is 'synced' overwrites its sync state — the row's
sync_status becomes 'failed' and sync_error is set — so a synced order's
sync state is not immutable at the repository level. -/
theorem synced_order_sync_state_overwritten :
    updateOrderSyncError 5000 "o1" "failed" "remote rejected the payload"
      [{ id := "o1", platform_order_id := some "p-77", status := "paid",
         sync_status := "synced", created_at := 10, updated_at := 20,
         synced_at := some 20 }] =
      [{ id := "o1", platform_order_id := some "p-77", status := "paid",
         sync_status := "failed",
         sync_error := some "remote rejected the payload",
         created_at := 10, updated_at := 5000, synced_at := some 20 }] := by
  decide

/-- C7 (amended): a synced order is protected only by the scan: a row
with sync_status 'synced' is never returned by findUnsyncedOrders, so
the sync engine's scan-driven passes never pick it up; the repository
update functions themselves are unguarded and overwrite the sync state
of whatever row matches the given id (see the counterexample). -/
theorem synced_order_never_scanned (tbl : List LocalOrderRow)
    (r : LocalOrderRow) (hr : r.sync_status = "synced") :
    r ∉ findUnsyncedOrders tbl := by
  intro hmem
  exact ((mem_findUnsyncedOrders tbl r).mp hmem).2.2 hr

/-- C7 witness: the concrete synced row is not selected by the scan. -/
theorem synced_order_never_scanned_witness :
    ({ id := "o1", platform_order_id := some "p-77", status := "paid",
       sync_status := "synced", created_at := 10, updated_at := 20,
       synced_at := some 20 } : LocalOrderRow) ∉
      findUnsyncedOrders
        [{ id := "o1", platform_order_id := some "p-77", status := "paid",
           sync_status := "synced", created_at := 10, updated_at := 20,
           synced_at := some 20 }] :=
  synced_order_never_scanned
    [{ id := "o1", platform_order_id := some "p-77", status := "paid",
       sync_status := "synced", created_at := 10, updated_at := 20,
       synced_at := some 20 }]
    { id := "o1", platform_order_id := some "p-77", status := "paid",
      sync_status := "synced", created_at := 10, updated_at := 20,
      synced_at := some 20 } rfl

/-- C8: starting from an empty queue, enqueue a POST whose deliveries
return 503 three times and then 200 (drains at times 0, 40000, 110000,
240000): the recorded retry delays (nextRetryAt − lastAttemptAt) after
the three failures are 30000 ms, 60000 ms and 120000 ms, the fourth
delivery succeeds, and the queue length afterwards is 0. -/
theorem backoff_scenario_three_503_then_200 :
    (((addToQueue (fun _ => FetchResult.status 503) 1 "req-1" 0
        { url := "https://shop.example.com/api/orders", method := "POST" }
        { queue := [], isProcessing := false }).1.queue.map
      fun e => e.nextRetryAt.getD 0 - e.lastAttemptAt.getD 0) = [30000]) ∧
    (((processQueue (fun _ => FetchResult.status 503) 40000
        (addToQueue (fun _ => FetchResult.status 503) 1 "req-1" 0
          { url := "https://shop.example.com/api/orders", method := "POST" }
          { queue := [], isProcessing := false }).1).1.queue.map
      fun e => e.nextRetryAt.getD 0 - e.lastAttemptAt.getD 0) = [60000]) ∧
    (((processQueue (fun _ => FetchResult.status 503) 110000
        (processQueue (fun _ => FetchResult.status 503) 40000
          (addToQueue (fun _ => FetchResult.status 503) 1 "req-1" 0
            { url := "https://shop.example.com/api/orders", method := "POST" }
            { queue := [], isProcessing := false }).1).1).1.queue.map
      fun e => e.nextRetryAt.getD 0 - e.lastAttemptAt.getD 0) = [120000]) ∧
    (processQueue (fun _ => FetchResult.status 200) 240000
        (processQueue (fun _ => FetchResult.status 503) 110000
          (processQueue (fun _ => FetchResult.status 503) 40000
            (addToQueue (fun _ => FetchResult.status 503) 1 "req-1" 0
              { url := "https://shop.example.com/api/orders", method := "POST" }
              { queue := [], isProcessing := false }).1).1).1).1.queue.length = 0 := by
  decide

/-- C9: the 5xx update records nextRetryAt − lastAttemptAt =
backoffMs(attempts + 1); backoffMs is monotone nondecreasing in the
attempt count, so consecutive failures of one entry never shrink the
delay; and from the 5th failure on the delay is pinned at the 300000 ms
ceiling, constant for all further failures. -/
theorem backoff_monotone_then_constant_at_ceiling :
    (∀ (now k : Nat) (item : QueuedRequest),
      (retryUpdate now k item).nextRetryAt.getD 0 -
        (retryUpdate now k item).lastAttemptAt.getD 0 = backoffMs (k + 1)) ∧
    (∀ n, backoffMs n ≤ backoffMs (n + 1)) ∧
    (∀ n, 5 ≤ n → backoffMs n = 300000) := by
  refine ⟨?_, ?_, ?_⟩
  · intro now k item
    simp only [retryUpdate, Option.getD_some]
    omega
  · intro n
    unfold backoffMs
    refine min_le_min ?_ le_rfl
    exact Nat.mul_le_mul_left _ (Nat.pow_le_pow_right (by omega) (by omega))
  · intro n hn
    unfold backoffMs
    refine min_eq_right ?_
    have h1 : (2 : Nat) ^ 4 ≤ 2 ^ (n - 1) :=
      Nat.pow_le_pow_right (by omega) (by omega)
    calc (300000 : Nat) ≤ 30000 * 2 ^ 4 := by norm_num
      _ ≤ 30000 * 2 ^ (n - 1) := Nat.mul_le_mul_left _ h1

/-- C9 witness: concrete delays — a delay recorded at time 1000 after
the first failure, monotonicity from attempt 4 to 5, and the ceiling at
attempts 5 and 6. -/
theorem backoff_monotone_witness :
    ((retryUpdate 1000 0 { id := 1,
                           url := "https://shop.example.com/api/orders",
                           method := "POST", attempts := 0, createdAt := 0,
                           requestId := "req-1" }).nextRetryAt.getD 0 -
      (retryUpdate 1000 0 { id := 1,
                            url := "https://shop.example.com/api/orders",
                            method := "POST", attempts := 0, createdAt := 0,
                            requestId := "req-1" }).lastAttemptAt.getD 0 =
        backoffMs 1) ∧
    backoffMs 4 ≤ backoffMs 5 ∧ backoffMs 5 = 300000 ∧ backoffMs 6 = 300000 :=
  ⟨backoff_monotone_then_constant_at_ceiling.1 1000 0
      { id := 1, url := "https://shop.example.com/api/orders",
        method := "POST", attempts := 0, createdAt := 0, requestId := "req-1" },
   backoff_monotone_then_constant_at_ceiling.2.1 4,
   backoff_monotone_then_constant_at_ceiling.2.2 5 (by norm_num),
   backoff_monotone_then_constant_at_ceiling.2.2 6 (by norm_num)⟩

/-- C10: every drained entry whose delivery returns a 3xx status falls
through all branches of the loop: it is neither removed nor updated —
the entry survives in the result queue with every field untouched
(attempts not incremented, nextRetryAt not set) — and the pass continues
to the next entry: whatever entry immediately follows it in the queue is
attempted in the same pass.  So such an entry stays queued indefinitely
and is re-attempted without backoff on every subsequent drain. -/
theorem redirect_status_entry_unchanged_pass_continues
    (fetch : Nat → FetchResult) (now : Nat) (s : SyncState)
    (a : QueuedRequest) (code : Nat)
    (hdist : IdsDistinct s.queue) (ha : a ∈ s.queue)
    (hmem : a.id ∈ (processQueue fetch now s).2)
    (hc : fetch a.id = .status code) (h3 : 300 ≤ code) (h3' : code ≤ 399) :
    a ∈ (processQueue fetch now s).1.queue ∧
    (∀ (l1 l2 : List QueuedRequest) (b : QueuedRequest),
      s.queue = l1 ++ a :: b :: l2 →
      b.id ∈ (processQueue fetch now s).2) := by
  have he := processQueue_eq_drainRec fetch now s hdist
  rw [he] at hmem ⊢
  have hok : respOk code = false := by
    simp only [respOk, Bool.and_eq_false_iff, decide_eq_false_iff_not]
    omega
  have h5 : ¬ 500 ≤ code := by omega
  have h4 : ¬ 400 ≤ code := by omega
  constructor
  · exact drainRec_other_kept fetch now hdist ha hmem hc hok h5 h4
  · intro l1 l2 b hq
    exact drainRec_continues_past_nonblocker fetch now hdist hq hmem
      (isBlocker_false_of_status hc h5)

/-- C10 witness: a 304 response on the second of three entries (reached
mid-pass, after the first entry's 200 removal) leaves that entry in the
queue unchanged while the third entry is still attempted in the same
pass. -/
theorem redirect_status_entry_unchanged_witness :
    ({ id := 2, url := "https://shop.example.com/api/b", method := "POST",
       attempts := 0, createdAt := 1, requestId := "req-2" } : QueuedRequest) ∈
      (processQueue
        (fun i => if i = 2 then FetchResult.status 304 else FetchResult.status 200)
        1000
        { queue := [{ id := 1, url := "https://shop.example.com/api/a",
                      method := "POST", attempts := 0, createdAt := 0,
                      requestId := "req-1" },
                    { id := 2, url := "https://shop.example.com/api/b",
                      method := "POST", attempts := 0, createdAt := 1,
                      requestId := "req-2" },
                    { id := 3, url := "https://shop.example.com/api/c",
                      method := "POST", attempts := 0, createdAt := 2,
                      requestId := "req-3" }], isProcessing := false }).1.queue ∧
    3 ∈ (processQueue
        (fun i => if i = 2 then FetchResult.status 304 else FetchResult.status 200)
        1000
        { queue := [{ id := 1, url := "https://shop.example.com/api/a",
                      method := "POST", attempts := 0, createdAt := 0,
                      requestId := "req-1" },
                    { id := 2, url := "https://shop.example.com/api/b",
                      method := "POST", attempts := 0, createdAt := 1,
                      requestId := "req-2" },
                    { id := 3, url := "https://shop.example.com/api/c",
                      method := "POST", attempts := 0, createdAt := 2,
                      requestId := "req-3" }], isProcessing := false }).2 :=
  have h := redirect_status_entry_unchanged_pass_continues
    (fun i => if i = 2 then FetchResult.status 304 else FetchResult.status 200)
    1000
    { queue := [{ id := 1, url := "https://shop.example.com/api/a",
                  method := "POST", attempts := 0, createdAt := 0,
                  requestId := "req-1" },
                { id := 2, url := "https://shop.example.com/api/b",
                  method := "POST", attempts := 0, createdAt := 1,
                  requestId := "req-2" },
                { id := 3, url := "https://shop.example.com/api/c",
                  method := "POST", attempts := 0, createdAt := 2,
                  requestId := "req-3" }], isProcessing := false }
    { id := 2, url := "https://shop.example.com/api/b", method := "POST",
      attempts := 0, createdAt := 1, requestId := "req-2" } 304
    (by decide) (by decide) (by decide) rfl (by decide) (by decide)
  ⟨h.1,
   h.2 [{ id := 1, url := "https://shop.example.com/api/a", method := "POST",
          attempts := 0, createdAt := 0, requestId := "req-1" }]
     [] { id := 3, url := "https://shop.example.com/api/c", method := "POST",
          attempts := 0, createdAt := 2, requestId := "req-3" } rfl⟩
